import Mathlib

/-!
Verification of the rtags `rbuild` indexing engine (src/rbuild/RBuild.cpp).

This file gives a shallow embedding of the pure core of `RBuild.cpp`:
the `CursorKey` identity/ordering type, the `collectSymbols` visitor
step, the `writeData` back-reference propagation pass, the dictionary
builder `collectDict`, the entry/manifest serialization shape, the
`updateDB` staleness scan, and the `getInclusions` dependency walker.

The clang front end is modelled as an environment (`TUnit`) mapping
opaque cursor ids to the observable data the code queries from libclang
(kind, instantiation location, display name, definition cursor,
referenced cursor, semantic parent, included file).  `QByteArray` /
`AtomicString` become `String`, `QHash` becomes an association list
whose insert conses (lookup-equivalent to replacement), `QSet` becomes
a duplicate-free-by-insert list, `time_t` becomes `Int`.
-/

/-! ## CXCursorKind constants (numeric values as in clang-c/Index.h) -/

def CXCursor_FirstDecl : Nat := 1
def CXCursor_StructDecl : Nat := 2
def CXCursor_ClassDecl : Nat := 4
def CXCursor_FieldDecl : Nat := 6
def CXCursor_VarDecl : Nat := 9
def CXCursor_CXXMethod : Nat := 21
def CXCursor_Namespace : Nat := 22
def CXCursor_Constructor : Nat := 24
def CXCursor_Destructor : Nat := 25
def CXCursor_LastDecl : Nat := 39
def CXCursor_FirstRef : Nat := 40
def CXCursor_LastRef : Nat := 50
def CXCursor_FirstInvalid : Nat := 70
def CXCursor_LastInvalid : Nat := 73
def CXCursor_FirstExpr : Nat := 100
def CXCursor_CallExpr : Nat := 103
def CXCursor_LastExpr : Nat := 153
def CXCursor_FirstStmt : Nat := 200
def CXCursor_LastStmt : Nat := 231
def CXCursor_MacroDefinition : Nat := 501
def CXCursor_MacroExpansion : Nat := 502
def CXCursor_InclusionDirective : Nat := 503

/-- clang_isInvalid on a cursor kind: the kind lies in the invalid range. -/
def clang_isInvalid (kind : Nat) : Bool :=
  decide (CXCursor_FirstInvalid ≤ kind) && decide (kind ≤ CXCursor_LastInvalid)

/-! ## The front-end interface consumed by the code

`CursorInfo` packages everything `RBuild.cpp` ever asks libclang about
one cursor: its kind, instantiation location (already resolved to an
absolute file name, as `Path::resolved` does), display name, the raw
`clang_isCursorDefinition` answer, and the ids of the cursors returned
by `clang_getCursorDefinition`, `clang_getCursorReferenced` and
`clang_getCursorSemanticParent`, plus the file name of
`clang_getIncludedFile` for inclusion directives.  Cursor id 0 is used
as the null cursor by concrete environments (its info is invalid). -/

structure CursorInfo where
  kind : Nat := CXCursor_FirstInvalid
  fileName : String := ""
  symbolName : String := ""
  line : Nat := 0
  col : Nat := 0
  off : Nat := 0
  isDefRaw : Bool := false
  definitionId : Nat := 0
  referencedId : Nat := 0
  parentId : Nat := 0
  includedFileName : String := ""
deriving Repr, DecidableEq

instance : Inhabited CursorInfo := ⟨{}⟩

/-- A translation unit: the environment of cursors the front end exposes. -/
structure TUnit where
  info : Nat → CursorInfo

/-- RBuild.cpp, `cursorDefinition`: a macro definition always counts as a
definition; every other kind (the `VarDecl` case falls through, its
`return false` is commented out in the source) defers to
`clang_isCursorDefinition`. -/
def cursorDefinition (c : CursorInfo) : Bool :=
  if c.kind == CXCursor_MacroDefinition then true else c.isDefRaw

/-- RBuild.cpp, `cursorDefinitionFor`: a call expression never counts as
providing a definition; otherwise defer to `cursorDefinition` of the
definition cursor. -/
def cursorDefinitionFor (d : CursorInfo) (c : CursorInfo) : Bool :=
  if c.kind == CXCursor_CallExpr then false else cursorDefinition d

/-! ## CursorKey (the spec's SymbolKey) -/

structure CursorKey where
  kind : Nat := CXCursor_FirstInvalid
  fileName : String := ""
  symbolName : String := ""
  line : Nat := 0
  col : Nat := 0
  off : Nat := 0
  isDef : Bool := false
deriving Repr, DecidableEq

instance : Inhabited CursorKey := ⟨{}⟩

/-- CursorKey::isValid: both names non-empty. -/
def CursorKey.isValid (k : CursorKey) : Bool :=
  !(k.fileName == "") && !(k.symbolName == "")

/-- CursorKey::isNull. -/
def CursorKey.isNull (k : CursorKey) : Bool := !k.isValid

/-- CursorKey::isDefinition. -/
def CursorKey.isDefinition (k : CursorKey) : Bool := k.isDef

/-- The CursorKey(CXCursor) constructor: kind is always taken from the
cursor; for a non-invalid kind the location, names and definition flag
are filled in (file name already `Path::resolved`). -/
def CursorKey.ofCursor (c : CursorInfo) : CursorKey :=
  if clang_isInvalid c.kind then { kind := c.kind }
  else
    { kind := c.kind, fileName := c.fileName, symbolName := c.symbolName,
      line := c.line, col := c.col, off := c.off, isDef := cursorDefinition c }

/-- CursorKey::operator<: invalid keys sort first, then byte-wise file
name, then offset, then symbol name, then kind. -/
def CursorKey.lt (a b : CursorKey) : Bool :=
  if !a.isValid then true
  else if !b.isValid then false
  else if a.fileName < b.fileName then true
  else if b.fileName < a.fileName then false
  else if a.off < b.off then true
  else if b.off < a.off then false
  else if a.symbolName < b.symbolName then true
  else if b.symbolName < a.symbolName then false
  else decide (a.kind < b.kind)

/-- CursorKey::operator==: null keys equal exactly the null keys; valid
keys compare kind, offset, file name and symbol name (not line/col, not
the definition flag). -/
def CursorKey.beq (a b : CursorKey) : Bool :=
  if a.isNull then b.isNull
  else a.kind == b.kind && a.off == b.off
       && a.fileName == b.fileName && a.symbolName == b.symbolName

/-- CursorKey::locationKey: `fileName + ":" + byteOffset`. -/
def CursorKey.locationKey (k : CursorKey) : String :=
  k.fileName ++ ":" ++ toString k.off

/-- RBuild.cpp `equalLocation`: same offset and file. -/
def equalLocation (a b : CursorKey) : Bool :=
  a.off == b.off && a.fileName == b.fileName

/-! ## The entry store (`CollectData`) and the `collectSymbols` visitor

`CollectData::seen` maps a location key to a `DataEntry*`; `data` is the
list of all entries.  Pointers are modelled as indices into the `data`
list, so the aliasing of `seen` and `data` is explicit. -/

structure Data0 where
  cursor : CursorKey := {}
  parentNames : List String := []
deriving Repr, DecidableEq

instance : Inhabited Data0 := ⟨{}⟩

structure DataEntry where
  hasDefinition : Bool := false
  cursor : Data0 := {}
  reference : Data0 := {}
  references : List String := []
deriving Repr, DecidableEq

instance : Inhabited DataEntry := ⟨{}⟩

structure CollectData where
  seen : List (String × Nat) := []
  data : List DataEntry := []
deriving Repr, DecidableEq

/-- QHash lookup on an association list (first binding wins, which makes
cons-insertion observationally equal to QHash's replacing insert). -/
def qlookup (l : List (String × Nat)) (k : String) : Option Nat :=
  match l.find? (fun p => p.1 == k) with
  | some p => some p.2
  | none => none

inductive CXChildVisitResult where
  | Break
  | Continue
  | Recurse
deriving Repr, DecidableEq

/-- The semantic-parent walk in `addCursor`: climb
`clang_getCursorSemanticParent` while the parent's key is valid,
collecting the names of struct/class/namespace parents (innermost
first).  The walk in the C code terminates because the chain reaches
the translation-unit cursor, whose key is invalid; here that
termination is supplied by a fuel argument. -/
def parentNamesChain (tu : TUnit) : Nat → Nat → List String
  | _, 0 => []
  | c, fuel + 1 =>
    let parent := (tu.info c).parentId
    let parentKey := CursorKey.ofCursor (tu.info parent)
    if !parentKey.isValid then []
    else
      let tail := parentNamesChain tu parent fuel
      if parentKey.kind == CXCursor_StructDecl || parentKey.kind == CXCursor_ClassDecl
         || parentKey.kind == CXCursor_Namespace
      then parentKey.symbolName :: tail
      else tail

/-- RBuild.cpp `addCursor`: overwrite the stored key, and *append* the
parent-name chain to whatever parent names the `Data` already held (the
C code never clears `parentNames`). -/
def addCursorData (tu : TUnit) (fuel c : Nat) (key : CursorKey) (d : Data0) : Data0 :=
  { cursor := key, parentNames := d.parentNames ++ parentNamesChain tu c fuel }

/-- The body of `collectSymbols` run on the entry selected by the
location key (freshly created or found without a definition). -/
def collectSymbolsCore (tu : TUnit) (fuel c : Nat) (key : CursorKey)
    (data : CollectData) (idx : Nat) : CollectData × CXChildVisitResult :=
  let entry := data.data.getD idx {}
  if key.kind == CXCursor_InclusionDirective then
    let incName := (tu.info c).includedFileName
    let inclusion : CursorKey :=
      { fileName := incName, symbolName := incName, line := 1, col := 1, off := 0 }
    let entry :=
      { entry with
        cursor := addCursorData tu fuel c key entry.cursor,
        -- addCursor on the null cursor: the parent walk stops at once,
        -- so only the key is overwritten.
        reference := { cursor := inclusion, parentNames := entry.reference.parentNames },
        hasDefinition := true }
    ({ data with data := data.data.set idx entry }, .Continue)
  else
    let defInfo := tu.info ((tu.info c).definitionId)
    let defKey := CursorKey.ofCursor defInfo
    if !cursorDefinition defInfo || equalLocation key defKey then
      if entry.reference.cursor.isNull
         || CursorKey.beq entry.reference.cursor entry.cursor.cursor then
        let refId := (tu.info c).referencedId
        let refKey := CursorKey.ofCursor (tu.info refId)
        if refKey.isValid then
          let entry :=
            { entry with
              cursor := addCursorData tu fuel c key entry.cursor,
              reference := addCursorData tu fuel refId refKey entry.reference }
          ({ data with data := data.data.set idx entry }, .Recurse)
        else (data, .Recurse)
      else (data, .Recurse)
    else
      let entry :=
        if cursorDefinitionFor defInfo (tu.info c) then { entry with hasDefinition := true }
        else entry
      let entry := { entry with cursor := addCursorData tu fuel c key entry.cursor }
      let entry :=
        if defKey.isValid then
          { entry with reference := addCursorData tu fuel ((tu.info c).definitionId) defKey entry.reference }
        else entry
      ({ data with data := data.data.set idx entry }, .Recurse)

/-- One `collectSymbols` callback invocation: skip invalid keys
(recursing), look the location key up in `seen`, ignore entries that
already have a definition, create-and-register a fresh entry otherwise,
then run the shared body. -/
def collectSymbols (tu : TUnit) (fuel c : Nat) (data : CollectData) :
    CollectData × CXChildVisitResult :=
  let key := CursorKey.ofCursor (tu.info c)
  if !key.isValid then (data, .Recurse)
  else
    match qlookup data.seen key.locationKey with
    | some idx =>
      if (data.data.getD idx {}).hasDefinition then (data, .Recurse)
      else collectSymbolsCore tu fuel c key data idx
    | none =>
      let idx := data.data.length
      let data2 : CollectData :=
        { seen := (key.locationKey, idx) :: data.seen, data := data.data ++ [{}] }
      collectSymbolsCore tu fuel c key data2 idx

/-! ## writeData: serialization helpers and the back-reference pass -/

/-- RBuild.cpp `cursorKeyToString`: `fileName:line:col`. -/
def cursorKeyToString (k : CursorKey) : String :=
  k.fileName ++ ":" ++ toString k.line ++ ":" ++ toString k.col

/-- QSet insert (membership-preserving model). -/
def qsetInsert (s : List String) (x : String) : List String :=
  if x ∈ s then s else s ++ [x]

/-- Whether the back-reference pass treats this kind specially
(method / constructor / destructor). -/
def isBackRefKind (k : Nat) : Bool :=
  k == CXCursor_CXXMethod || k == CXCursor_Constructor || k == CXCursor_Destructor

/-- One iteration (entry `i`) of the `writeData` back-reference loop.
For a method/constructor/destructor declaration whose key differs from
its reference and is not itself a definition, the target entry found
via `seen` gets its `reference` replaced by this entry's `cursor`; when
`seen` has no entry for the reference's location key, `QHash::value`
returns a null pointer which the C code dereferences after a
debug-only `Q_ASSERT` — modelled as `Except.error ()`.  For every
other entry, if the reference's location key names a different known
entry, this entry's location string is inserted into that entry's
`references` set. -/
def backRefStep (seen : List (String × Nat)) (data : List DataEntry) (i : Nat) :
    Except Unit (List DataEntry) :=
  let entry := data.getD i {}
  let key := entry.cursor.cursor
  let ref := entry.reference.cursor
  if isBackRefKind key.kind then
    if !CursorKey.beq key ref && !key.isDefinition then
      match qlookup seen ref.locationKey with
      | none => .error ()
      | some j =>
        let defEntry := data.getD j {}
        .ok (data.set j { defEntry with reference := entry.cursor })
    else .ok data
  else
    match qlookup seen ref.locationKey with
    | some j =>
      if j == i then .ok data
      else
        let r := data.getD j {}
        .ok (data.set j
          { r with references := qsetInsert r.references (cursorKeyToString entry.cursor.cursor) })
    | none => .ok data

/-- The back-reference loop over a list of entry indices. -/
def backRefLoop (seen : List (String × Nat)) : List Nat → List DataEntry →
    Except Unit (List DataEntry)
  | [], data => .ok data
  | i :: rest, data =>
    match backRefStep seen data i with
    | .error e => .error e
    | .ok d2 => backRefLoop seen rest d2

/-- The whole back-reference propagation pass of `RBuild::writeData`:
iterate the loop body over every entry of `mData->data` in order. -/
def backRefPass (seen : List (String × Nat)) (data : List DataEntry) :
    Except Unit (List DataEntry) :=
  backRefLoop seen (List.range data.length) data

/-- RBuild.cpp `writeEntry`: an entry with an invalid cursor key writes
nothing; otherwise the bare-key record `fileName:line:col` maps to the
`makeRefValue` payload (the reference's location string and the
back-reference set). -/
def writeEntryRecord (entry : DataEntry) : Option (String × (String × List String)) :=
  let key := entry.cursor.cursor
  if !key.isValid then none
  else some (cursorKeyToString key,
             (cursorKeyToString entry.reference.cursor, entry.references))

/-- The shape of `operator<<(QDataStream, const CollectData::DataEntry&)`:
the C code streams `hasDefinition`, the `cursor` side, and then the
`references` set twice (the `reference` side is never streamed). -/
structure SerializedEntry where
  hasDefinition : Bool
  cursor : Data0
  refs1 : List String
  refs2 : List String
deriving Repr, DecidableEq

def serializeEntry (e : DataEntry) : SerializedEntry :=
  { hasDefinition := e.hasDefinition, cursor := e.cursor,
    refs1 := e.references, refs2 := e.references }

/-- The single-space manifest record of `writeData`: the entry count
followed by every entry of `mData->data`, serialized unconditionally. -/
def manifest (data : List DataEntry) : Nat × List SerializedEntry :=
  (data.length, data.map serializeEntry)

/-! ## The dictionary builder (`collectDict`) -/

/-- QByteArray::indexOf for one character: byte index or -1. -/
def strIndexOf (s : String) (c : Char) : Int :=
  match s.toList.findIdx? (fun x => x == c) with
  | some i => (i : Int)
  | none => -1

/-- QByteArray::left(n) under an `Int` index. -/
def strTake (s : String) (i : Int) : String := s.take i.toNat

/-- The dictionary: name → set of location strings. -/
def dictInsert : List (String × List String) → String → String →
    List (String × List String)
  | [], n, l => [(n, [l])]
  | (k, s) :: rest, n, l =>
    if k == n then (k, qsetInsert s l) :: rest
    else (k, s) :: dictInsert rest n l

def dictContains (d : List (String × List String)) (n l : String) : Bool :=
  d.any (fun p => p.1 == n && p.2.contains l)

/-- The `foreach(cur, parents)` loop of `collectDict`: each container
name is prepended (`cur::name`), the signature index is shifted, and
both the qualified name and (when a signature exists) the qualified
bare name are inserted. -/
def dictParentLoop (loc : String) : List String → List (String × List String) →
    String → Int → List (String × List String)
  | [], dict, _, _ => dict
  | cur :: rest, dict, name, colon =>
    let old : Int := (name.length : Int)
    let name2 := cur ++ "::" ++ name
    let colon2 := if colon != -1 then colon + ((name2.length : Int) - old) else colon
    let dict :=
      if colon != -1 then dictInsert dict (strTake name2 colon2) loc else dict
    let dict := dictInsert dict name2 loc
    dictParentLoop loc rest dict name2 colon2

/-- Whether `collectDict` skips this side entirely: reference-category
and expression-category kinds. -/
def dictSkipKind (k : Nat) : Bool :=
  (decide (CXCursor_FirstRef ≤ k) && decide (k ≤ CXCursor_LastRef))
  || (decide (CXCursor_FirstExpr ≤ k) && decide (k ≤ CXCursor_LastExpr))

/-- Whether the container-qualified variants are also produced. -/
def dictContainerKind (k : Nat) : Bool :=
  k == CXCursor_Namespace || k == CXCursor_ClassDecl || k == CXCursor_StructDecl
  || k == CXCursor_FieldDecl || k == CXCursor_CXXMethod
  || k == CXCursor_Constructor || k == CXCursor_Destructor

/-- One side (`cursor` or `reference`) of `collectDict`. -/
def collectDictSide (d : Data0) (dict : List (String × List String)) :
    List (String × List String) :=
  let key := d.cursor
  if !key.isValid then dict
  else if dictSkipKind key.kind then dict
  else
    let name := key.symbolName
    let loc := cursorKeyToString key
    let dict := dictInsert dict name loc
    let colon := strIndexOf name '('
    let dict := if colon != -1 then dictInsert dict (strTake name colon) loc else dict
    if dictContainerKind key.kind then
      dictParentLoop loc d.parentNames dict name colon
    else dict

/-- RBuild.cpp `collectDict`: the `cursor` side is processed first, then
the `reference` side. -/
def collectDict (e : DataEntry) (dict : List (String × List String)) :
    List (String × List String) :=
  collectDictSide e.reference (collectDictSide e.cursor dict)

/-! ## The `updateDB` staleness scan -/

structure GccArguments where
  raw : List String := []
deriving Repr, DecidableEq

/-- One persisted `f:`-family record as `updateDB` reads it back. -/
structure DepRecordStored where
  file : String
  args : GccArguments
  lastModified : Int
  dependencies : List (String × Int)
deriving Repr, DecidableEq

/-- QHash insert (cons; lookup-equivalent to replacement). -/
def qinsert {α : Type} (d : List (String × α)) (k : String) (v : α) :
    List (String × α) := (k, v) :: d

/-- QHash::contains. -/
def qcontains {α : Type} (d : List (String × α)) (k : String) : Bool :=
  d.any (fun p => p.1 == k)

/-- QHash lookup returning the first (most recent) binding. -/
def qfind {α : Type} (d : List (String × α)) (k : String) : Option α :=
  match d.find? (fun p => p.1 == k) with
  | some p => some p.2
  | none => none

/-- The per-record body of the `updateDB` scan loop: the owner file is
inserted with its stored arguments when its own modification time
changed; then every recorded dependency whose modification time changed
is inserted — under its *own* path, with default-constructed
`GccArguments` — unless already dirty. -/
def scanRecord (mtime : String → Int) (dirty : List (String × GccArguments))
    (rec : DepRecordStored) : List (String × GccArguments) :=
  let dirty :=
    if rec.lastModified != mtime rec.file then qinsert dirty rec.file rec.args else dirty
  rec.dependencies.foldl
    (fun d pt =>
      if !qcontains d pt.1 && (mtime pt.1 != pt.2) then qinsert d pt.1 {} else d)
    dirty

/-- The dirty set computed by `RBuild::updateDB` over all persisted
`f:` records. -/
def updateDBDirty (mtime : String → Int) (records : List DepRecordStored) :
    List (String × GccArguments) :=
  records.foldl (scanRecord mtime) []

/-! ## The `getInclusions` dependency walker -/

/-- One `getInclusions` callback from `clang_getInclusions`: when the
inclusion stack is non-empty, record the included file, then the stack
entries at indices `0 .. len-2` — every stack element except the last
(the translation unit itself).  Paths are normalized through `resolve`
(`Path::resolved`) and stamped with their current modification time. -/
def getInclusionsStep (resolve : String → String) (mtime : String → Int)
    (deps : List (String × Int)) (cb : String × List String) : List (String × Int) :=
  if cb.2.length != 0 then
    cb.2.dropLast.foldl (fun d s => qinsert d (resolve s) (mtime (resolve s)))
      (qinsert deps (resolve cb.1) (mtime (resolve cb.1)))
  else deps

/-- The dependency map accumulated for one translation unit: the
`RBuild::compile` initial record holds an empty map, which
`clang_getInclusions` then fills via `getInclusions`. -/
def runInclusions (resolve : String → String) (mtime : String → Int)
    (callbacks : List (String × List String)) : List (String × Int) :=
  callbacks.foldl (getInclusionsStep resolve mtime) []

/-! ## Concrete front ends, stores and records used by witnesses and
counterexamples -/

def kA : CursorKey :=
  { kind := 8, fileName := "a.cpp", symbolName := "f()", line := 1, col := 1, off := 0 }

def kB : CursorKey :=
  { kind := 8, fileName := "b.cpp", symbolName := "g()", line := 2, col := 1, off := 4 }

/-- A variable declaration that libclang reports as a definition. -/
def c5var : CursorInfo :=
  { kind := CXCursor_VarDecl, fileName := "a.cpp", symbolName := "v",
    line := 3, col := 5, off := 21, isDefRaw := true }

/-- A macro definition cursor (not reported as a definition by
`clang_isCursorDefinition`, which does not cover preprocessor
entities). -/
def c5mdef : CursorInfo :=
  { kind := CXCursor_MacroDefinition, fileName := "a.cpp", symbolName := "M",
    line := 1, col := 1, off := 0, isDefRaw := false }

/-- A small translation unit.  Cursor 0 is the null cursor; cursor 1 is
an expression at `a.cpp:5` referring to cursor 3; cursor 2 sits at the
same location with `clang_isCursorDefinition` true and no separate
definition cursor; cursor 3 is a declaration of `y` at `a.cpp:9`;
cursor 4 sits at `a.cpp:5` and has cursor 3 as its definition. -/
def tuC2 : TUnit :=
  ⟨fun n =>
    [({} : CursorInfo),
     { kind := 101, fileName := "a.cpp", symbolName := "x", line := 1, col := 2, off := 5,
       isDefRaw := false, definitionId := 0, referencedId := 3, parentId := 0 },
     { kind := 8, fileName := "a.cpp", symbolName := "x", line := 1, col := 2, off := 5,
       isDefRaw := true, definitionId := 0, referencedId := 3, parentId := 0 },
     { kind := 8, fileName := "a.cpp", symbolName := "y", line := 2, col := 1, off := 9,
       isDefRaw := true, definitionId := 0, referencedId := 0, parentId := 0 },
     { kind := 8, fileName := "a.cpp", symbolName := "x", line := 1, col := 2, off := 5,
       isDefRaw := false, definitionId := 3, referencedId := 0, parentId := 0 }].getD n {}⟩

/-- A store holding one entry, already marked as having a definition,
registered in `seen` under `a.cpp:5`. -/
def dataC6 : CollectData :=
  { seen := [("a.cpp:5", 0)], data := [{ hasDefinition := true }] }

/-- A method declaration entry whose reference's location key has no
entry in the store. -/
def c4entry : DataEntry :=
  { hasDefinition := false,
    cursor := { cursor := { kind := 21, fileName := "a.cpp", symbolName := "m()",
                            line := 1, col := 1, off := 3 } },
    reference := { cursor := { kind := 8, fileName := "a.cpp", symbolName := "m()",
                               line := 2, col := 1, off := 9 } } }

def c4seen : List (String × Nat) := [("a.cpp:3", 0)]

/-- Store for the back-reference witness: entry 0 references entry 1;
entry 1 references itself. -/
def data7 : List DataEntry :=
  [{ cursor := { cursor := { kind := 8, fileName := "a.cpp", symbolName := "u",
                             line := 1, col := 1, off := 1 } },
     reference := { cursor := { kind := 8, fileName := "a.cpp", symbolName := "w",
                                line := 2, col := 1, off := 5 } } },
   { cursor := { cursor := { kind := 8, fileName := "a.cpp", symbolName := "w",
                             line := 2, col := 1, off := 5 } },
     reference := { cursor := { kind := 8, fileName := "a.cpp", symbolName := "w",
                                line := 2, col := 1, off := 5 } } }]

def seen7 : List (String × Nat) := [("a.cpp:1", 0), ("a.cpp:5", 1)]

/-- The store `data7` after the back-reference pass: entry 1 has
acquired the back reference `a.cpp:1:1`. -/
def result7 : List DataEntry :=
  [{ cursor := { cursor := { kind := 8, fileName := "a.cpp", symbolName := "u",
                             line := 1, col := 1, off := 1 } },
     reference := { cursor := { kind := 8, fileName := "a.cpp", symbolName := "w",
                                line := 2, col := 1, off := 5 } } },
   { cursor := { cursor := { kind := 8, fileName := "a.cpp", symbolName := "w",
                             line := 2, col := 1, off := 5 } },
     reference := { cursor := { kind := 8, fileName := "a.cpp", symbolName := "w",
                                line := 2, col := 1, off := 5 } },
     references := ["a.cpp:1:1"] }]

/-- An entry for method `bar(int)` of class `Foo`. -/
def e8 : DataEntry :=
  { cursor := { cursor := { kind := 21, fileName := "f.cpp", symbolName := "bar(int)",
                            line := 4, col := 2, off := 17 },
                parentNames := ["Foo"] } }

/-- An entry whose cursor key is invalid but whose reference key is a
valid declaration. -/
def e9 : DataEntry :=
  { cursor := {},
    reference := { cursor := { kind := 30, fileName := "a.cpp", symbolName := "ns",
                               line := 1, col := 1, off := 0 } } }

/-- An entry with both keys invalid. -/
def e9both : DataEntry := {}

def c1rec : DepRecordStored :=
  { file := "a.cpp", args := { raw := ["-DX"] }, lastModified := 100,
    dependencies := [("b.h", 50)] }

/-- Current modification times for the staleness counterexample:
`a.cpp` is unchanged at 100, `b.h` has changed from 50 to 60. -/
def c1mtime : String → Int := fun s => if s == "a.cpp" then 100 else 60

/-- Inclusion callbacks for one translation unit `a.cpp`: the main file
(empty stack), `b.h` included from `a.cpp`, and `c.h` included from
`b.h`. -/
def cbs10 : List (String × List String) :=
  [("a.cpp", []), ("b.h", ["a.cpp"]), ("c.h", ["b.h", "a.cpp"])]

def resolveId : String → String := fun s => s

def mtimeZero : String → Int := fun _ => 0

/-- Invariant of the back-reference pass, relative to the store
`data0` it started from: the length is unchanged, every entry keeps its
`cursor` side, and no entry's `references` set holds that entry's own
location string. -/
def entriesInv (data0 es : List DataEntry) : Prop :=
  es.length = data0.length
  ∧ (∀ i, (es.getD i {}).cursor = (data0.getD i {}).cursor)
  ∧ (∀ i, ∀ s ∈ (es.getD i {}).references,
      s ≠ cursorKeyToString (data0.getD i {}).cursor.cursor)

/-! ## Small helper lemmas -/

theorem getD_set_self {α : Type} (l : List α) (i : Nat) (a d : α) (h : i < l.length) :
    (l.set i a).getD i d = a := by
  rw [List.getD_eq_getElem _ _ (by simpa using h), List.getElem_set]
  simp

theorem getD_set_ne {α : Type} (l : List α) (i j : Nat) (a d : α) (h : i ≠ j) :
    (l.set i a).getD j d = l.getD j d := by
  rcases Nat.lt_or_ge j l.length with hj | hj
  · rw [List.getD_eq_getElem _ _ (by simpa using hj), List.getD_eq_getElem _ _ hj,
      List.getElem_set, if_neg h]
  · rw [List.getD_eq_default _ _ (by simpa using hj), List.getD_eq_default _ _ hj]

/-! ## C3: CursorKey ordering and equality -/

/-- C3: for valid CursorKeys the strict comparison is asymmetric, and
equality holds exactly when kind, offset, file name and symbol name all
match; line and column never influence equality. -/
theorem cursorKey_order_spec (a b : CursorKey)
    (ha : a.isValid = true) (hb : b.isValid = true) :
    (¬(CursorKey.lt a b = true ∧ CursorKey.lt b a = true))
    ∧ (CursorKey.beq a b = true ↔
        (a.kind = b.kind ∧ a.off = b.off ∧ a.fileName = b.fileName
         ∧ a.symbolName = b.symbolName))
    ∧ (∀ la ca lb cb : Nat,
        CursorKey.beq { a with line := la, col := ca } { b with line := lb, col := cb }
          = CursorKey.beq a b) := by
  refine ⟨?_, ?_, ?_⟩
  · rintro ⟨h1, h2⟩
    unfold CursorKey.lt at h1 h2
    rw [ha, hb] at h1 h2
    simp only [Bool.not_true, Bool.false_eq_true, if_false] at h1 h2
    split_ifs at h1 h2 <;>
      (first
        | exact Bool.noConfusion h1
        | exact Bool.noConfusion h2
        | omega
        | exact absurd ‹b.fileName < a.fileName› (lt_asymm ‹a.fileName < b.fileName›)
        | exact absurd ‹b.symbolName < a.symbolName› (lt_asymm ‹a.symbolName < b.symbolName›)
        | (simp only [decide_eq_true_eq] at h1 h2; omega))
  · unfold CursorKey.beq CursorKey.isNull
    rw [ha]
    simp [Bool.and_eq_true, and_assoc]
  · intro la ca lb cb
    rfl

/-- C3 witness at two concrete valid keys. -/
theorem cursorKey_order_spec_witness :
    (¬(CursorKey.lt kA kB = true ∧ CursorKey.lt kB kA = true))
    ∧ (CursorKey.beq kA kB = true ↔
        (kA.kind = kB.kind ∧ kA.off = kB.off ∧ kA.fileName = kB.fileName
         ∧ kA.symbolName = kB.symbolName))
    ∧ CursorKey.beq { kA with line := 9, col := 9 } { kB with line := 7, col := 7 }
        = CursorKey.beq kA kB :=
  ⟨(cursorKey_order_spec kA kB (by decide) (by decide)).1,
   (cursorKey_order_spec kA kB (by decide) (by decide)).2.1,
   (cursorKey_order_spec kA kB (by decide) (by decide)).2.2 9 9 7 7⟩

/-! ## C5: the definition flag of a constructed key -/

/-- C5 counterexample: the claim that a plain variable declaration is
never auto-classified as a definition is false — the `VarDecl` case in
`cursorDefinition` falls through (its `return false` is commented out),
so a `VarDecl` the front end reports as a definition gets
`isDef = true`. -/
theorem cursorKey_isDef_counterexample :
    ¬ (∀ c : CursorInfo, clang_isInvalid c.kind = false →
        ((CursorKey.ofCursor c).isDef = true ↔
          (c.kind = CXCursor_MacroDefinition
           ∨ (c.kind ≠ CXCursor_VarDecl ∧ c.isDefRaw = true)))) := by
  intro h
  rcases (h c5var (by decide)).1 (by decide) with h1 | h2
  · exact absurd h1 (by decide)
  · exact absurd h2.1 (by decide)

/-- C5 amended: for a cursor whose kind is not invalid, the constructed
key's definition flag is true exactly when the kind is a macro
definition or the front end reports the cursor as a definition — with
no exception for variable declarations. -/
theorem cursorKey_isDef_spec (c : CursorInfo) (h : clang_isInvalid c.kind = false) :
    (CursorKey.ofCursor c).isDef = true ↔
      (c.kind = CXCursor_MacroDefinition ∨ c.isDefRaw = true) := by
  unfold CursorKey.ofCursor
  rw [h]
  simp only [Bool.false_eq_true, if_false]
  by_cases hk : c.kind = CXCursor_MacroDefinition <;> simp [cursorDefinition, hk]

/-- C5 amended witness at a concrete macro-definition cursor. -/
theorem cursorKey_isDef_spec_witness :
    (CursorKey.ofCursor c5mdef).isDef = true ↔
      (c5mdef.kind = CXCursor_MacroDefinition ∨ c5mdef.isDefRaw = true) :=
  cursorKey_isDef_spec c5mdef (by decide)

/-! ## C6: first definition wins -/

/-- C6: a visit to a location whose entry already has a definition
leaves the whole store untouched and continues the traversal
(`CXChildVisit_Recurse`). -/
theorem collectSymbols_first_definition_wins (tu : TUnit) (fuel c : Nat)
    (data : CollectData) (idx : Nat)
    (hfound : qlookup data.seen (CursorKey.ofCursor (tu.info c)).locationKey = some idx)
    (hdef : (data.data.getD idx {}).hasDefinition = true) :
    collectSymbols tu fuel c data = (data, CXChildVisitResult.Recurse) := by
  by_cases hv : (CursorKey.ofCursor (tu.info c)).isValid = true
  · simp only [List.getD, List.get?_eq_getElem?] at hdef
    simp [collectSymbols, hv, hfound, hdef]
  · simp only [Bool.not_eq_true] at hv
    simp [collectSymbols, hv]

/-- C6 witness at a concrete store whose single entry has a definition. -/
theorem collectSymbols_first_definition_wins_witness :
    collectSymbols tuC2 3 1 dataC6 = (dataC6, CXChildVisitResult.Recurse) :=
  collectSymbols_first_definition_wins tuC2 3 1 dataC6 0 (by decide) (by decide)

/-! ## C4: missing back-reference target -/

/-- C4: on a store holding a single method declaration whose reference
location names no entry, the back-reference pass of `writeData`
dereferences the null `DataEntry*` returned by `QHash::value` (only a
debug-mode `Q_ASSERT` guards it) — modelled as `Except.error ()` —
instead of reporting a consistency error and completing. -/
theorem backRef_missing_target_crashes :
    backRefPass c4seen [c4entry] = Except.error () := by
  rfl

/-! ## C1: the staleness scan -/

theorem qcontains_qinsert {α : Type} (d : List (String × α)) (k f : String) (v : α) :
    qcontains (qinsert d k v) f = ((k == f) || qcontains d f) := by
  simp [qinsert, qcontains]

theorem depStep_contains (m : String → Int) (d : List (String × GccArguments))
    (pt : String × Int) (f : String) :
    qcontains (if !qcontains d pt.1 && (m pt.1 != pt.2) then qinsert d pt.1 {} else d) f
      = true
    ↔ qcontains d f = true ∨ (pt.1 = f ∧ m pt.1 ≠ pt.2) := by
  by_cases hc : (!qcontains d pt.1 && (m pt.1 != pt.2)) = true
  · rw [if_pos hc, qcontains_qinsert]
    simp only [Bool.or_eq_true, beq_iff_eq, Bool.and_eq_true, Bool.not_eq_true',
      bne_iff_ne] at *
    tauto
  · rw [if_neg hc]
    simp only [Bool.and_eq_true, Bool.not_eq_true', bne_iff_ne, not_and] at hc
    constructor
    · exact Or.inl
    · rintro (h | ⟨rfl, hne⟩)
      · exact h
      · rcases Bool.eq_false_or_eq_true (qcontains d pt.1) with hf | hf
        · exact hf
        · exact absurd hne (hc hf)

theorem depFold_contains (m : String → Int) (deps : List (String × Int))
    (d0 : List (String × GccArguments)) (f : String) :
    qcontains (deps.foldl
      (fun d pt => if !qcontains d pt.1 && (m pt.1 != pt.2) then qinsert d pt.1 {} else d)
      d0) f = true
    ↔ qcontains d0 f = true ∨ ∃ pt ∈ deps, pt.1 = f ∧ m pt.1 ≠ pt.2 := by
  induction deps generalizing d0 with
  | nil => simp
  | cons pt rest ih =>
    simp only [List.foldl_cons]
    rw [ih, depStep_contains]
    simp only [List.exists_mem_cons_iff]
    rw [or_assoc]

theorem scanRecord_contains (m : String → Int) (d : List (String × GccArguments))
    (r : DepRecordStored) (f : String) :
    qcontains (scanRecord m d r) f = true
    ↔ qcontains d f = true ∨ (r.file = f ∧ r.lastModified ≠ m r.file)
      ∨ ∃ pt ∈ r.dependencies, pt.1 = f ∧ m pt.1 ≠ pt.2 := by
  unfold scanRecord
  rw [depFold_contains]
  by_cases hc : (r.lastModified != m r.file) = true
  · rw [if_pos hc, qcontains_qinsert]
    simp only [Bool.or_eq_true, beq_iff_eq, bne_iff_ne] at *
    constructor
    · rintro ((rfl | h) | h)
      · exact Or.inr (Or.inl ⟨rfl, hc⟩)
      · exact Or.inl h
      · exact Or.inr (Or.inr h)
    · rintro (h | ⟨rfl, _⟩ | h)
      · exact Or.inl (Or.inr h)
      · exact Or.inl (Or.inl rfl)
      · exact Or.inr h
  · rw [if_neg hc]
    simp only [bne_iff_ne, not_not] at hc
    constructor
    · rintro (h | h)
      · exact Or.inl h
      · exact Or.inr (Or.inr h)
    · rintro (h | ⟨_, hne⟩ | h)
      · exact Or.inl h
      · exact absurd hc hne
      · exact Or.inr h

theorem updateDBFold_contains (m : String → Int) (records : List DepRecordStored)
    (d0 : List (String × GccArguments)) (f : String) :
    qcontains (records.foldl (scanRecord m) d0) f = true
    ↔ qcontains d0 f = true
      ∨ ∃ r ∈ records, (r.file = f ∧ r.lastModified ≠ m r.file)
          ∨ ∃ pt ∈ r.dependencies, pt.1 = f ∧ m pt.1 ≠ pt.2 := by
  induction records generalizing d0 with
  | nil => simp
  | cons r rest ih =>
    simp only [List.foldl_cons]
    rw [ih, scanRecord_contains]
    simp only [List.exists_mem_cons_iff]
    rw [or_assoc]

/-- C1 counterexample: with one record (owner `a.cpp`, args `-DX`,
stored time 100, dependency `b.h` at stored time 50) and current times
`a.cpp` ↦ 100, `b.h` ↦ 60, the scan does *not* mark the owner
translation unit `a.cpp` dirty; it marks the included file `b.h`
itself dirty, with default-constructed (empty) compile arguments. -/
theorem updateDB_dirty_counterexample :
    qcontains (updateDBDirty c1mtime [c1rec]) "a.cpp" = false
    ∧ qcontains (updateDBDirty c1mtime [c1rec]) "b.h" = true
    ∧ qfind (updateDBDirty c1mtime [c1rec]) "b.h" = some {} := by
  refine ⟨?_, ?_, ?_⟩ <;> rfl

/-- C1 amended: a file is in the dirty set exactly when some persisted
record names it as the owner with a changed modification time, or some
record lists it as an included file with a changed modification time —
the included file is inserted under its own path (with empty compile
arguments), and the owner is *not* marked dirty on behalf of its
included files. -/
theorem updateDB_dirty_membership (mtime : String → Int) (records : List DepRecordStored)
    (f : String) :
    qcontains (updateDBDirty mtime records) f = true
    ↔ ∃ r ∈ records, (r.file = f ∧ r.lastModified ≠ mtime r.file)
        ∨ ∃ pt ∈ r.dependencies, pt.1 = f ∧ mtime pt.1 ≠ pt.2 := by
  unfold updateDBDirty
  rw [updateDBFold_contains]
  simp [qcontains]

/-! ## C10: the inclusion walker never records the translation unit -/

theorem resolveFold_contains (resolve : String → String) (mtime : String → Int)
    (ss : List String) (d0 : List (String × Int)) (f : String) :
    qcontains (ss.foldl (fun d s => qinsert d (resolve s) (mtime (resolve s))) d0) f = true
    ↔ qcontains d0 f = true ∨ ∃ s ∈ ss, resolve s = f := by
  induction ss generalizing d0 with
  | nil => simp
  | cons s rest ih =>
    simp only [List.foldl_cons]
    rw [ih, qcontains_qinsert]
    simp only [Bool.or_eq_true, beq_iff_eq, List.exists_mem_cons_iff]
    rw [or_assoc, or_left_comm]

theorem getInclusionsStep_contains (resolve : String → String) (mtime : String → Int)
    (deps : List (String × Int)) (cb : String × List String) (f : String) :
    qcontains (getInclusionsStep resolve mtime deps cb) f = true
    ↔ qcontains deps f = true
      ∨ (cb.2 ≠ [] ∧ (resolve cb.1 = f ∨ ∃ s ∈ cb.2.dropLast, resolve s = f)) := by
  unfold getInclusionsStep
  by_cases hc : (cb.2.length != 0) = true
  · rw [if_pos hc, resolveFold_contains, qcontains_qinsert]
    have hne : cb.2 ≠ [] := by
      simpa [bne_iff_ne, List.length_eq_zero] using hc
    simp only [Bool.or_eq_true, beq_iff_eq, hne, ne_eq, not_false_eq_true, true_and]
    rw [or_assoc, or_left_comm]
  · rw [if_neg hc]
    have hnil : cb.2 = [] := by
      simpa [bne_iff_ne, List.length_eq_zero] using hc
    simp [hnil]

theorem runInclusionsFold_contains (resolve : String → String) (mtime : String → Int)
    (cbs : List (String × List String)) (d0 : List (String × Int)) (f : String) :
    qcontains (cbs.foldl (getInclusionsStep resolve mtime) d0) f = true
    ↔ qcontains d0 f = true
      ∨ ∃ cb ∈ cbs, cb.2 ≠ [] ∧ (resolve cb.1 = f ∨ ∃ s ∈ cb.2.dropLast, resolve s = f) := by
  induction cbs generalizing d0 with
  | nil => simp
  | cons cb rest ih =>
    simp only [List.foldl_cons]
    rw [ih, getInclusionsStep_contains]
    simp only [List.exists_mem_cons_iff]
    rw [or_assoc]

/-- C10: the dependency map of one translation unit holds exactly the
resolved included files and the resolved stack elements below the stack
top (the stack's last element — the translation unit — is skipped); in
particular, when the translation unit's path only ever occurs as the
last stack element and never as an included file, it is not a key of
its own dependency map. -/
theorem getInclusions_excludes_tu (resolve : String → String) (mtime : String → Int)
    (callbacks : List (String × List String)) (tuPath f : String) :
    (qcontains (runInclusions resolve mtime callbacks) f = true
      ↔ ∃ cb ∈ callbacks, cb.2 ≠ []
          ∧ (resolve cb.1 = f ∨ ∃ s ∈ cb.2.dropLast, resolve s = f))
    ∧ ((∀ cb ∈ callbacks, cb.2 ≠ [] →
          resolve cb.1 ≠ tuPath ∧ ∀ s ∈ cb.2.dropLast, resolve s ≠ tuPath) →
        qcontains (runInclusions resolve mtime callbacks) tuPath = false) := by
  have hmain : ∀ g, qcontains (runInclusions resolve mtime callbacks) g = true
      ↔ ∃ cb ∈ callbacks, cb.2 ≠ []
          ∧ (resolve cb.1 = g ∨ ∃ s ∈ cb.2.dropLast, resolve s = g) := by
    intro g
    unfold runInclusions
    rw [runInclusionsFold_contains]
    simp [qcontains]
  refine ⟨hmain f, ?_⟩
  intro h
  cases hq : qcontains (runInclusions resolve mtime callbacks) tuPath with
  | false => rfl
  | true =>
    rcases (hmain tuPath).mp hq with ⟨cb, hcb, hne, hor⟩
    rcases hor with h1 | ⟨s, hs, h2⟩
    · exact absurd h1 ((h cb hcb hne).1)
    · exact absurd h2 ((h cb hcb hne).2 s hs)

/-- C10 witness: for `a.cpp` including `b.h` which includes `c.h`, the
accumulated dependency map has no key `a.cpp`. -/
theorem getInclusions_excludes_tu_witness :
    qcontains (runInclusions resolveId mtimeZero cbs10) "a.cpp" = false :=
  (getInclusions_excludes_tu resolveId mtimeZero cbs10 "a.cpp" "a.cpp").2 (by decide)

/-! ## C8: dictionary round-trip -/

theorem contains_eq_true_of_mem {l : List String} {x : String} (h : x ∈ l) :
    l.contains x = true := List.elem_iff.mpr h

theorem mem_of_contains {l : List String} {x : String} (h : l.contains x = true) :
    x ∈ l := List.elem_iff.mp h

theorem qsetInsert_mem (s : List String) (x y : String) (h : y ∈ s) :
    y ∈ qsetInsert s x := by
  unfold qsetInsert
  split
  · exact h
  · exact List.mem_append.mpr (Or.inl h)

theorem qsetInsert_self (s : List String) (x : String) : x ∈ qsetInsert s x := by
  unfold qsetInsert
  split
  · assumption
  · simp

theorem bor_eq_true {a b : Bool} : (a || b) = true ↔ a = true ∨ b = true := by
  cases a <;> cases b <;> simp

theorem band_eq_true {a b : Bool} : (a && b) = true ↔ a = true ∧ b = true := by
  cases a <;> cases b <;> simp

theorem dictContains_cons (k : String) (s : List String)
    (rest : List (String × List String)) (n l : String) :
    dictContains ((k, s) :: rest) n l = ((k == n && s.contains l) || dictContains rest n l) :=
  rfl

theorem dictInsert_cons (k : String) (s : List String)
    (rest : List (String × List String)) (n l : String) :
    dictInsert ((k, s) :: rest) n l
      = if k == n then (k, qsetInsert s l) :: rest else (k, s) :: dictInsert rest n l :=
  rfl

theorem dictContains_insert_self (d : List (String × List String)) (n l : String) :
    dictContains (dictInsert d n l) n l = true := by
  induction d with
  | nil => simp [dictInsert, dictContains, qsetInsert]
  | cons p rest ih =>
    rcases p with ⟨k, s⟩
    rw [dictInsert_cons]
    by_cases hk : (k == n) = true
    · rw [if_pos hk, dictContains_cons]
      simp only [hk, Bool.true_and]
      exact bor_eq_true.mpr (Or.inl (contains_eq_true_of_mem (qsetInsert_self s l)))
    · rw [if_neg hk, dictContains_cons, ih]
      simp

theorem dictContains_insert_mono (d : List (String × List String)) (n l n2 l2 : String)
    (h : dictContains d n l = true) :
    dictContains (dictInsert d n2 l2) n l = true := by
  induction d with
  | nil => simp [dictContains] at h
  | cons p rest ih =>
    rcases p with ⟨k, s⟩
    rw [dictContains_cons] at h
    rw [dictInsert_cons]
    by_cases hk : (k == n2) = true
    · rw [if_pos hk, dictContains_cons]
      rcases bor_eq_true.mp h with h1 | h1
      · rcases band_eq_true.mp h1 with ⟨ha, hb⟩
        exact bor_eq_true.mpr (Or.inl (band_eq_true.mpr
          ⟨ha, contains_eq_true_of_mem (qsetInsert_mem _ _ _ (mem_of_contains hb))⟩))
      · exact bor_eq_true.mpr (Or.inr h1)
    · rw [if_neg hk, dictContains_cons]
      rcases bor_eq_true.mp h with h1 | h1
      · exact bor_eq_true.mpr (Or.inl h1)
      · exact bor_eq_true.mpr (Or.inr (ih h1))

theorem dictParentLoop_mono (loc : String) (ps : List String)
    (dict : List (String × List String)) (name : String) (colon : Int) (n l : String)
    (h : dictContains dict n l = true) :
    dictContains (dictParentLoop loc ps dict name colon) n l = true := by
  induction ps generalizing dict name colon with
  | nil => simpa [dictParentLoop] using h
  | cons cur rest ih =>
    simp only [dictParentLoop]
    apply ih
    apply dictContains_insert_mono
    split
    · exact dictContains_insert_mono _ _ _ _ _ h
    · exact h

theorem collectDictSide_mono (d0 : Data0) (dict : List (String × List String))
    (n l : String) (h : dictContains dict n l = true) :
    dictContains (collectDictSide d0 dict) n l = true := by
  simp only [collectDictSide]
  split
  · exact h
  · split
    · exact h
    · split
      · apply dictParentLoop_mono
        split
        · exact dictContains_insert_mono _ _ _ _ _ (dictContains_insert_mono _ _ _ _ _ h)
        · exact dictContains_insert_mono _ _ _ _ _ h
      · split
        · exact dictContains_insert_mono _ _ _ _ _ (dictContains_insert_mono _ _ _ _ _ h)
        · exact dictContains_insert_mono _ _ _ _ _ h

/-- C8: running `collectDict` over the entry of method `bar(int)` of
class `Foo` (at location `f.cpp:4:2`) puts the method's location into
the dictionary under all four names `bar`, `bar(int)`, `Foo::bar` and
`Foo::bar(int)`, whatever the dictionary already held. -/
theorem collectDict_qualified_names (dict0 : List (String × List String)) :
    dictContains (collectDict e8 dict0) "bar" "f.cpp:4:2" = true
    ∧ dictContains (collectDict e8 dict0) "bar(int)" "f.cpp:4:2" = true
    ∧ dictContains (collectDict e8 dict0) "Foo::bar" "f.cpp:4:2" = true
    ∧ dictContains (collectDict e8 dict0) "Foo::bar(int)" "f.cpp:4:2" = true := by
  have hstep : collectDictSide e8.cursor dict0 =
      dictInsert (dictInsert (dictInsert (dictInsert dict0 "bar(int)" "f.cpp:4:2")
        "bar" "f.cpp:4:2") "Foo::bar" "f.cpp:4:2") "Foo::bar(int)" "f.cpp:4:2" := rfl
  unfold collectDict
  rw [hstep]
  refine ⟨?_, ?_, ?_, ?_⟩ <;> apply collectDictSide_mono
  · exact dictContains_insert_mono _ _ _ _ _ (dictContains_insert_mono _ _ _ _ _
      (dictContains_insert_self _ _ _))
  · exact dictContains_insert_mono _ _ _ _ _ (dictContains_insert_mono _ _ _ _ _
      (dictContains_insert_mono _ _ _ _ _ (dictContains_insert_self _ _ _)))
  · exact dictContains_insert_mono _ _ _ _ _ (dictContains_insert_self _ _ _)
  · exact dictContains_insert_self _ _ _

/-! ## C9: entries with invalid cursor keys and the persisted output -/

/-- C9 counterexample: an entry whose cursor key is invalid is *not*
dropped from all persisted record families — its valid reference side
still produces dictionary entries, and the single-space manifest
serializes every entry unconditionally. -/
theorem writeData_invalid_entry_counterexample :
    ¬ (∀ e : DataEntry, e.cursor.cursor.isValid = false →
        writeEntryRecord e = none
        ∧ (∀ d, collectDict e d = d)
        ∧ (∀ rest, (manifest (e :: rest)).2 = (manifest rest).2)) := by
  intro h
  have h2 := (h e9 (by decide)).2.1 []
  exact absurd h2 (by decide)

/-- C9 amended: an entry whose cursor key is invalid produces no
bare-key symbol record; its cursor side contributes nothing to the
dictionary (the dictionary stays untouched when the reference key is
invalid as well, but a valid reference side still contributes); and the
entry is nevertheless always serialized into the single-space
manifest. -/
theorem writeData_invalid_entry_dropped (e : DataEntry)
    (h : e.cursor.cursor.isValid = false) :
    writeEntryRecord e = none
    ∧ (e.reference.cursor.isValid = false → ∀ d, collectDict e d = d)
    ∧ (∀ rest, (manifest (e :: rest)).2 = serializeEntry e :: (manifest rest).2) := by
  refine ⟨?_, ?_, ?_⟩
  · simp [writeEntryRecord, h]
  · intro h2 d
    simp [collectDict, collectDictSide, h, h2]
  · intro rest
    simp [manifest]

/-- C9 amended witness at an entry with both keys invalid. -/
theorem writeData_invalid_entry_dropped_witness :
    writeEntryRecord e9both = none
    ∧ collectDict e9both [] = []
    ∧ (manifest [e9both]).2 = [serializeEntry e9both] :=
  ⟨(writeData_invalid_entry_dropped e9both (by decide)).1,
   (writeData_invalid_entry_dropped e9both (by decide)).2.1 (by decide) [],
   (writeData_invalid_entry_dropped e9both (by decide)).2.2 []⟩

/-! ## C2: the merge upgrade of a twice-visited location -/

theorem CursorKey.ofCursor_kind (c : CursorInfo) : (CursorKey.ofCursor c).kind = c.kind := by
  unfold CursorKey.ofCursor
  split <;> rfl

theorem addCursorData_cursor (tu : TUnit) (fuel c : Nat) (key : CursorKey) (d : Data0) :
    (addCursorData tu fuel c key d).cursor = key := rfl

theorem collectSymbolsCore_frame (tu : TUnit) (fuel c : Nat) (key : CursorKey)
    (data : CollectData) (idx : Nat) :
    (collectSymbolsCore tu fuel c key data idx).1.seen = data.seen
    ∧ (collectSymbolsCore tu fuel c key data idx).1.data.length = data.data.length := by
  constructor <;>
    (unfold collectSymbolsCore
     dsimp only
     repeat' split
     all_goals (first | rfl | simp [List.length_set]))

theorem collectSymbols_first (tu : TUnit) (fuel c : Nat)
    (hv : (CursorKey.ofCursor (tu.info c)).isValid = true) :
    (collectSymbols tu fuel c {}).1.seen
      = [((CursorKey.ofCursor (tu.info c)).locationKey, 0)]
    ∧ (collectSymbols tu fuel c {}).1.data.length = 1 := by
  unfold collectSymbols
  simp only [hv, Bool.not_true, Bool.false_eq_true, if_false, qlookup, List.find?_nil]
  have hf := collectSymbolsCore_frame tu fuel c (CursorKey.ofCursor (tu.info c))
    { seen := [((CursorKey.ofCursor (tu.info c)).locationKey, 0)], data := [{}] } 0
  constructor
  · exact hf.1
  · exact hf.2

/-- C2 counterexample: two visits to the same location, the first not a
definition, the second with `isDefinition = true`, need not leave an
entry with `hasDefinition = true` — a cursor that *is* itself the
definition takes the reference-shaped branch (its definition cursor is
not at a different location), which never sets `hasDefinition`. -/
theorem collectSymbols_merge_counterexample :
    ¬ (∀ (tu : TUnit) (fuel c1 c2 : Nat),
        (CursorKey.ofCursor (tu.info c1)).isValid = true →
        (CursorKey.ofCursor (tu.info c2)).isValid = true →
        (CursorKey.ofCursor (tu.info c2)).locationKey
          = (CursorKey.ofCursor (tu.info c1)).locationKey →
        (CursorKey.ofCursor (tu.info c1)).isDef = false →
        (CursorKey.ofCursor (tu.info c2)).isDef = true →
        ((collectSymbols tu 0 c2 (collectSymbols tu 0 c1 {}).1).1.data.getD 0
            {}).hasDefinition = true) := by
  intro h
  have hx := h tuC2 0 1 2 (by decide) (by decide) (by decide) (by decide) (by decide)
  exact absurd hx (by decide)

/-- C2 amended: for a location visited twice starting from an empty
store, where the first visit's key is valid and leaves the entry
without a definition, and the second visit is not an inclusion
directive or call expression and has a definition cursor that is a
definition at a *different* location with a valid key, the store
afterwards holds exactly one entry; its `hasDefinition` is true and its
cursor and reference keys are the second visit's key and the second
visit's definition key. -/
theorem collectSymbols_merge_upgrade (tu : TUnit) (fuel c1 c2 : Nat)
    (hv1 : (CursorKey.ofCursor (tu.info c1)).isValid = true)
    (hv2 : (CursorKey.ofCursor (tu.info c2)).isValid = true)
    (hloc : (CursorKey.ofCursor (tu.info c2)).locationKey
              = (CursorKey.ofCursor (tu.info c1)).locationKey)
    (hD1 : ((collectSymbols tu fuel c1 {}).1.data.getD 0 {}).hasDefinition = false)
    (hnotinc : ((tu.info c2).kind == CXCursor_InclusionDirective) = false)
    (hnotcall : ((tu.info c2).kind == CXCursor_CallExpr) = false)
    (hdef : cursorDefinition (tu.info ((tu.info c2).definitionId)) = true)
    (hneq : equalLocation (CursorKey.ofCursor (tu.info c2))
              (CursorKey.ofCursor (tu.info ((tu.info c2).definitionId))) = false)
    (hdefvalid : (CursorKey.ofCursor (tu.info ((tu.info c2).definitionId))).isValid = true) :
    ((collectSymbols tu fuel c2 (collectSymbols tu fuel c1 {}).1).1.data.length = 1)
    ∧ (((collectSymbols tu fuel c2 (collectSymbols tu fuel c1 {}).1).1.data.getD 0
          {}).hasDefinition = true)
    ∧ (((collectSymbols tu fuel c2 (collectSymbols tu fuel c1 {}).1).1.data.getD 0
          {}).cursor.cursor = CursorKey.ofCursor (tu.info c2))
    ∧ (((collectSymbols tu fuel c2 (collectSymbols tu fuel c1 {}).1).1.data.getD 0
          {}).reference.cursor
        = CursorKey.ofCursor (tu.info ((tu.info c2).definitionId))) := by
  obtain ⟨hseen, hlen⟩ := collectSymbols_first tu fuel c1 hv1
  set d1 := (collectSymbols tu fuel c1 {}).1 with hd1
  have hlk : qlookup d1.seen (CursorKey.ofCursor (tu.info c2)).locationKey = some 0 := by
    rw [hseen, hloc]
    simp [qlookup]
  have hstep : collectSymbols tu fuel c2 d1
      = collectSymbolsCore tu fuel c2 (CursorKey.ofCursor (tu.info c2)) d1 0 := by
    unfold collectSymbols
    simp only [hv2, Bool.not_true, Bool.false_eq_true, if_false, hlk, hD1]
  rw [hstep]
  unfold collectSymbolsCore
  simp only [CursorKey.ofCursor_kind, hnotinc, Bool.false_eq_true, if_false,
    hdef, Bool.not_true, Bool.false_or, hneq, cursorDefinitionFor, hnotcall,
    eq_self_iff_true, if_true, hdefvalid]
  have h01 : 0 < d1.data.length := by rw [hlen]; exact Nat.one_pos
  refine ⟨?_, ?_, ?_, ?_⟩
  · rw [List.length_set, hlen]
  · rw [getD_set_self _ _ _ _ h01]
  · rw [getD_set_self _ _ _ _ h01]
    rfl
  · rw [getD_set_self _ _ _ _ h01]
    rfl

/-- C2 amended witness: in `tuC2`, visiting cursor 1 (a reference at
`a.cpp:5`) and then cursor 4 (a declaration at `a.cpp:5` whose
definition is cursor 3 at `a.cpp:9`) upgrades the single entry. -/
theorem collectSymbols_merge_upgrade_witness :
    ((collectSymbols tuC2 2 4 (collectSymbols tuC2 2 1 {}).1).1.data.length = 1)
    ∧ (((collectSymbols tuC2 2 4 (collectSymbols tuC2 2 1 {}).1).1.data.getD 0
          {}).hasDefinition = true)
    ∧ (((collectSymbols tuC2 2 4 (collectSymbols tuC2 2 1 {}).1).1.data.getD 0
          {}).cursor.cursor = CursorKey.ofCursor (tuC2.info 4))
    ∧ (((collectSymbols tuC2 2 4 (collectSymbols tuC2 2 1 {}).1).1.data.getD 0
          {}).reference.cursor
        = CursorKey.ofCursor (tuC2.info ((tuC2.info 4).definitionId))) :=
  collectSymbols_merge_upgrade tuC2 2 1 4 (by decide) (by decide) (by decide) (by decide)
    (by decide) (by decide) (by decide) (by decide) (by decide)

/-! ## C7: no self back-references -/

theorem qsetInsert_subset {s : List String} {x y : String} (h : y ∈ qsetInsert s x) :
    y ∈ s ∨ y = x := by
  unfold qsetInsert at h
  split at h
  · exact Or.inl h
  · rcases List.mem_append.mp h with h | h
    · exact Or.inl h
    · exact Or.inr (List.mem_singleton.mp h)

theorem backRefStep_inv (seen : List (String × Nat)) (data0 : List DataEntry)
    (hinj : ∀ i, i < data0.length → ∀ j, j < data0.length → i ≠ j →
      cursorKeyToString (data0.getD i {}).cursor.cursor
        ≠ cursorKeyToString (data0.getD j {}).cursor.cursor)
    (es : List DataEntry) (i : Nat) (hi : i < data0.length)
    (hinv : entriesInv data0 es) (r : List DataEntry)
    (hr : backRefStep seen es i = Except.ok r) :
    entriesInv data0 r := by
  obtain ⟨hlen, hcur, href⟩ := hinv
  unfold backRefStep at hr
  dsimp only at hr
  split at hr
  · -- method / constructor / destructor branch
    split at hr
    · -- declaration with a reference elsewhere: look the target up
      split at hr
      · -- lookup failed: contradiction with ok
        exact Except.noConfusion hr
      · -- lookup found index j: only that entry's `reference` changes
        rename_i j hq
        simp only [Except.ok.injEq] at hr
        subst hr
        refine ⟨by rw [List.length_set]; exact hlen, ?_, ?_⟩
        · intro k
          by_cases hk : j = k
          · subst hk
            by_cases hjlen : j < es.length
            · rw [getD_set_self _ _ _ _ hjlen]
              exact hcur j
            · rw [List.set_eq_of_length_le (Nat.le_of_not_lt hjlen)]
              exact hcur j
          · rw [getD_set_ne _ _ _ _ _ hk]
            exact hcur k
        · intro k s hs
          by_cases hk : j = k
          · subst hk
            by_cases hjlen : j < es.length
            · rw [getD_set_self _ _ _ _ hjlen] at hs
              exact href j s hs
            · rw [List.set_eq_of_length_le (Nat.le_of_not_lt hjlen)] at hs
              exact href j s hs
          · rw [getD_set_ne _ _ _ _ _ hk] at hs
            exact href k s hs
    · -- key == ref or the key is a definition: nothing happens
      simp only [Except.ok.injEq] at hr
      subst hr
      exact ⟨hlen, hcur, href⟩
  · -- every other kind: insert a back reference into the target
    split at hr
    · rename_i j hq
      split at hr
      · -- the target is this very entry: skipped
        simp only [Except.ok.injEq] at hr
        subst hr
        exact ⟨hlen, hcur, href⟩
      · -- a different entry: its references grow by this entry's string
        rename_i hji
        simp only [Except.ok.injEq] at hr
        subst hr
        refine ⟨by rw [List.length_set]; exact hlen, ?_, ?_⟩
        · intro k
          by_cases hk : j = k
          · subst hk
            by_cases hjlen : j < es.length
            · rw [getD_set_self _ _ _ _ hjlen]
              exact hcur j
            · rw [List.set_eq_of_length_le (Nat.le_of_not_lt hjlen)]
              exact hcur j
          · rw [getD_set_ne _ _ _ _ _ hk]
            exact hcur k
        · intro k s hs
          by_cases hk : j = k
          · subst hk
            by_cases hjlen : j < es.length
            · rw [getD_set_self _ _ _ _ hjlen] at hs
              rcases qsetInsert_subset hs with h | h
              · exact href j s h
              · subst h
                have hij : i ≠ j := by
                  intro h
                  exact hji (by rw [h]; exact beq_self_eq_true j)
                have hjd : j < data0.length := by rw [← hlen]; exact hjlen
                rw [congrArg (fun d : Data0 => cursorKeyToString d.cursor) (hcur i)]
                exact hinj i hi j hjd hij
            · rw [List.set_eq_of_length_le (Nat.le_of_not_lt hjlen)] at hs
              exact href j s hs
          · rw [getD_set_ne _ _ _ _ _ hk] at hs
            exact href k s hs
    · simp only [Except.ok.injEq] at hr
      subst hr
      exact ⟨hlen, hcur, href⟩

theorem backRefLoop_inv (seen : List (String × Nat)) (data0 : List DataEntry)
    (hinj : ∀ i, i < data0.length → ∀ j, j < data0.length → i ≠ j →
      cursorKeyToString (data0.getD i {}).cursor.cursor
        ≠ cursorKeyToString (data0.getD j {}).cursor.cursor)
    (idxs : List Nat) :
    ∀ es r, (∀ i ∈ idxs, i < data0.length) → entriesInv data0 es →
      backRefLoop seen idxs es = Except.ok r → entriesInv data0 r := by
  induction idxs with
  | nil =>
    intro es r _ hinv hr
    unfold backRefLoop at hr
    simp only [Except.ok.injEq] at hr
    subst hr
    exact hinv
  | cons i rest ih =>
    intro es r hbound hinv hr
    unfold backRefLoop at hr
    cases hstep : backRefStep seen es i with
    | error e =>
      rw [hstep] at hr
      exact Except.noConfusion hr
    | ok d2 =>
      rw [hstep] at hr
      exact ih d2 r (fun k hk => hbound k (List.mem_cons_of_mem _ hk))
        (backRefStep_inv seen data0 hinj es i (hbound i (List.mem_cons_self _ _)) hinv d2
          hstep) hr

/-- C7: provided distinct entries of the store have distinct location
strings and all `references` sets start empty (as they do after
`collectSymbols`, which never touches them), the back-reference pass
never puts an entry's own location string into that entry's
`references`; moreover a step whose reference location resolves to the
entry itself changes no `references` set at all (self-reference is not
an edge). -/
theorem backRefPass_no_self_reference (seen : List (String × Nat))
    (data0 result : List DataEntry)
    (hinj : ∀ i, i < data0.length → ∀ j, j < data0.length → i ≠ j →
      cursorKeyToString (data0.getD i {}).cursor.cursor
        ≠ cursorKeyToString (data0.getD j {}).cursor.cursor)
    (hinit : ∀ i, i < data0.length → (data0.getD i ({} : DataEntry)).references = [])
    (hrun : backRefPass seen data0 = Except.ok result) :
    (∀ i, cursorKeyToString ((result.getD i ({} : DataEntry)).cursor.cursor)
        ∉ (result.getD i ({} : DataEntry)).references)
    ∧ (∀ (es : List DataEntry) (i : Nat),
        qlookup seen ((es.getD i ({} : DataEntry)).reference.cursor.locationKey) = some i →
        ∀ r, backRefStep seen es i = Except.ok r →
          ∀ k, (r.getD k ({} : DataEntry)).references
            = (es.getD k ({} : DataEntry)).references) := by
  constructor
  · have hInv0 : entriesInv data0 data0 := by
      refine ⟨rfl, fun i => rfl, fun i s hs => ?_⟩
      by_cases hi : i < data0.length
      · rw [hinit i hi] at hs
        exact absurd hs (List.not_mem_nil s)
      · rw [List.getD_eq_default _ _ (Nat.le_of_not_lt hi)] at hs
        exact absurd hs (List.not_mem_nil s)
    obtain ⟨hlen, hcur, href⟩ :=
      backRefLoop_inv seen data0 hinj (List.range data0.length) data0 result
        (fun k hk => List.mem_range.mp hk) hInv0 hrun
    intro i hmem
    exact href i _ hmem (congrArg (fun d : Data0 => cursorKeyToString d.cursor) (hcur i))
  · intro es i hq r hr k
    unfold backRefStep at hr
    dsimp only at hr
    split at hr
    · split at hr
      · rw [hq] at hr
        simp only [Except.ok.injEq] at hr
        subst hr
        by_cases hk : i = k
        · subst hk
          by_cases hilen : i < es.length
          · rw [getD_set_self _ _ _ _ hilen]
          · rw [List.set_eq_of_length_le (Nat.le_of_not_lt hilen)]
        · rw [getD_set_ne _ _ _ _ _ hk]
      · simp only [Except.ok.injEq] at hr
        subst hr
        rfl
    · rw [hq] at hr
      simp only [beq_self_eq_true, if_true] at hr
      simp only [Except.ok.injEq] at hr
      subst hr
      rfl

/-- C7 witness: running the pass over `data7` (entry 0 referencing
entry 1, entry 1 referencing itself) yields `result7`, and entry 1's
own location string is not among its back references. -/
theorem backRefPass_no_self_reference_witness :
    cursorKeyToString ((result7.getD 1 ({} : DataEntry)).cursor.cursor)
      ∉ (result7.getD 1 ({} : DataEntry)).references :=
  (backRefPass_no_self_reference seen7 data7 result7 (by decide) (by decide) (by rfl)).1 1
